import Mathlib

/-!
Verification development for the `SecureLogger` audit-logging subsystem
(`src/logger.py`): SHA-256-based anonymization, Fernet-encrypted dual-stream
persistence, date-partitioned retrieval, and time-based retention cleanup.

The pure algorithms (`_anonymize` and its SHA-256 hash, entry assembly,
stream layout, the retention scan) are embedded directly from the source.
The two external libraries the source calls (`cryptography.fernet` and
`json`) are not part of the repository; they are modelled from their
documented contracts (authenticated symmetric encryption; injective JSON
serialization with parsing as its partial inverse).
-/

namespace SecureLog

/-! ## SHA-256 (as used by `hashlib.sha256(...).hexdigest()` in `_anonymize`)

Machine words are `Nat` reduced modulo 2^32. -/

/-- Truncation to a 32-bit word. -/
def wmod (x : Nat) : Nat := x % 4294967296

/-- Right rotation of a 32-bit word by `n` bits. -/
def rotr (n x : Nat) : Nat := wmod ((x >>> n) ||| (x <<< (32 - n)))

def bsig0 (x : Nat) : Nat := (rotr 2 x) ^^^ (rotr 13 x) ^^^ (rotr 22 x)

def bsig1 (x : Nat) : Nat := (rotr 6 x) ^^^ (rotr 11 x) ^^^ (rotr 25 x)

def ssig0 (x : Nat) : Nat := (rotr 7 x) ^^^ (rotr 18 x) ^^^ (x >>> 3)

def ssig1 (x : Nat) : Nat := (rotr 17 x) ^^^ (rotr 19 x) ^^^ (x >>> 10)

/-- SHA-256 choice function; complement is xor with the all-ones word. -/
def chf (x y z : Nat) : Nat := (x &&& y) ^^^ ((x ^^^ 4294967295) &&& z)

def majf (x y z : Nat) : Nat := (x &&& y) ^^^ (x &&& z) ^^^ (y &&& z)

/-- The 64 SHA-256 round constants (fractional parts of cube roots of the
first 64 primes), written in decimal, four per line. -/
def K256 : List Nat :=
  [1116352408, 1899447441, 3049323471, 3921009573,
   961987163, 1508970993, 2453635748, 2870763221,
   3624381080, 310598401, 607225278, 1426881987,
   1925078388, 2162078206, 2614888103, 3248222580,
   3835390401, 4022224774, 264347078, 604807628,
   770255983, 1249150122, 1555081692, 1996064986,
   2554220882, 2821834349, 2952996808, 3210313671,
   3336571891, 3584528711, 113926993, 338241895,
   666307205, 773529912, 1294757372, 1396182291,
   1695183700, 1986661051, 2177026350, 2456956037,
   2730485921, 2820302411, 3259730800, 3345764771,
   3516065817, 3600352804, 4094571909, 275423344,
   430227734, 506948616, 659060556, 883997877,
   958139571, 1322822218, 1537002063, 1747873779,
   1955562222, 2024104815, 2227730452, 2361852424,
   2428436474, 2756734187, 3204031479, 3329325298]

/-- The eight SHA-256 working variables / hash state words. -/
structure Hash8 where
  a : Nat
  b : Nat
  c : Nat
  d : Nat
  e : Nat
  f : Nat
  g : Nat
  h : Nat

/-- SHA-256 initial hash value (fractional parts of square roots of the
first 8 primes), in decimal. -/
def H0 : Hash8 :=
  ⟨1779033703, 3144134277, 1013904242, 2773480762,
   1359893119, 2600822924, 528734635, 1541459225⟩

/-- One SHA-256 round, consuming one (round constant, schedule word) pair. -/
def roundStep (st : Hash8) (kw : Nat × Nat) : Hash8 :=
  let t1 := wmod (st.h + bsig1 st.e + chf st.e st.f st.g + kw.1 + kw.2)
  let t2 := wmod (bsig0 st.a + majf st.a st.b st.c)
  ⟨wmod (t1 + t2), st.a, st.b, st.c, wmod (st.d + t1), st.e, st.f, st.g⟩

/-- Extend the message schedule by one word; the list is kept newest-first. -/
def stepW (rev : List Nat) : List Nat :=
  wmod (ssig1 (rev.getD 1 0) + rev.getD 6 0 + ssig0 (rev.getD 14 0) + rev.getD 15 0) :: rev

/-- Full 64-word message schedule from the 16 words of one block. -/
def schedule (w16 : List Nat) : List Nat :=
  (stepW^[48] w16.reverse).reverse

/-- Big-endian 32-bit words from a byte list. -/
def toWords : List Nat → List Nat
  | b0 :: b1 :: b2 :: b3 :: rest => (((b0 * 256 + b1) * 256 + b2) * 256 + b3) :: toWords rest
  | _ => []

/-- SHA-256 compression of one 64-byte block. -/
def compress (st : Hash8) (block : List Nat) : Hash8 :=
  let t := ((K256.zip (schedule (toWords block))).foldl roundStep st)
  ⟨wmod (st.a + t.a), wmod (st.b + t.b), wmod (st.c + t.c), wmod (st.d + t.d),
   wmod (st.e + t.e), wmod (st.f + t.f), wmod (st.g + t.g), wmod (st.h + t.h)⟩

/-- Big-endian 8-byte encoding of the message bit length. -/
def be8 (n : Nat) : List Nat :=
  [(n >>> 56) % 256, (n >>> 48) % 256, (n >>> 40) % 256, (n >>> 32) % 256,
   (n >>> 24) % 256, (n >>> 16) % 256, (n >>> 8) % 256, n % 256]

/-- SHA-256 padding: a 0x80 byte, zeros to 56 mod 64, then the bit length. -/
def pad (msg : List Nat) : List Nat :=
  let r := (msg.length + 1) % 64
  let zeros := if r ≤ 56 then 56 - r else 120 - r
  msg ++ 128 :: (List.replicate zeros 0 ++ be8 (8 * msg.length))

/-- Split into 64-byte blocks (fueled by the total length). -/
def blocksGo : Nat → List Nat → List (List Nat)
  | _, [] => []
  | 0, _ :: _ => []
  | fuel + 1, x :: xs => (x :: xs).take 64 :: blocksGo fuel ((x :: xs).drop 64)

/-- SHA-256 of a byte sequence, as the eight final state words. -/
def sha256 (msg : List Nat) : Hash8 :=
  (blocksGo (pad msg).length (pad msg)).foldl compress H0

/-- Lowercase hexadecimal digit, as produced by `hexdigest()`. -/
def hexDigit (n : Nat) : Char := if n < 10 then Char.ofNat (48 + n) else Char.ofNat (87 + n)

/-- Eight hex characters of one 32-bit word, most significant nibble first. -/
def hex8 (w : Nat) : List Char :=
  [hexDigit ((w >>> 28) &&& 15), hexDigit ((w >>> 24) &&& 15), hexDigit ((w >>> 20) &&& 15),
   hexDigit ((w >>> 16) &&& 15), hexDigit ((w >>> 12) &&& 15), hexDigit ((w >>> 8) &&& 15),
   hexDigit ((w >>> 4) &&& 15), hexDigit (w &&& 15)]

/-- The 64 hex characters of a digest. -/
def hexChars (st : Hash8) : List Char :=
  hex8 st.a ++ hex8 st.b ++ hex8 st.c ++ hex8 st.d ++ hex8 st.e ++ hex8 st.f ++ hex8 st.g ++ hex8 st.h

/-- UTF-8 encoding of one character (Python `str.encode()`). -/
def utf8Char (c : Char) : List Nat :=
  let n := c.toNat
  if n < 128 then [n]
  else if n < 2048 then [192 + n / 64, 128 + n % 64]
  else if n < 65536 then [224 + n / 4096, 128 + (n / 64) % 64, 128 + n % 64]
  else [240 + n / 262144, 128 + (n / 4096) % 64, 128 + (n / 64) % 64, 128 + n % 64]

/-- UTF-8 encoding of a string (Python `str.encode()`). -/
def utf8Encode (s : String) : List Nat := (s.data.map utf8Char).flatten

/-- `hashlib.sha256(data.encode()).hexdigest()` as a character list. -/
def sha256HexChars (s : String) : List Char := hexChars (sha256 (utf8Encode s))

/-! ## Anonymizer (`SecureLogger._anonymize`, src/logger.py lines 33-37) -/

/-- `_anonymize` as a plain function: Python `if not data` is true exactly for
the empty string; otherwise `hexdigest()[:12]`, the first 12 characters. -/
def anonymize (data : String) : String :=
  if data = "" then "anonymous"
  else String.mk ((sha256HexChars data).take 12)

/-- A `SecureLogger` instance; its only per-instance state relevant here is the
Fernet key (`self.key` / `self.fernet`), modelled as a `Nat` key identity. -/
structure SecureLogger where
  key : Nat

/-- The `_anonymize` method; it reads no instance state. -/
def SecureLogger.anonMethod (_self : SecureLogger) (data : String) : String :=
  anonymize data

/-! ## Library models: `cryptography.fernet` and `json`

Neither library is part of the repository source; both are modelled from
their documented contracts (spec section 4.2 for the Cipher; JSON
serialization as an injective encoding whose parse is a partial inverse).

`JValue` is a JSON value; `FernetTok` is a Fernet token produced under some
key (its text form is a string, so a token may sit inside a JSON value, as
the logger stores `encrypt(...).decode()` in the `content` and
`additional_data` fields); `PBytes` is a plaintext byte payload (the
`encode()` of either a plain string or a serialized JSON text); `JsonText`
is a serialized text: either the well-formed serialization of a value, or
malformed text (distinguished by a tag), or blank/whitespace text. -/

mutual
inductive JValue : Type where
  | s : String → JValue
  | b : Bool → JValue
  | tok : FernetTok → JValue
  | obj : List (String × JValue) → JValue

inductive FernetTok : Type where
  | mk : Nat → PBytes → FernetTok

inductive PBytes : Type where
  | ofStr : String → PBytes
  | ofJson : JsonText → PBytes

inductive JsonText : Type where
  | wf : JValue → JsonText
  | malformed : Nat → JsonText
  | blank : JsonText
end

/-- Modelled from the spec: `Fernet.encrypt` (authenticated symmetric
encryption, self-contained token, never fails). -/
def Fernet.encrypt (key : Nat) (p : PBytes) : FernetTok := .mk key p

/-- Modelled from the spec: `Fernet.decrypt` recovers the plaintext iff the
token was produced under the same key; a token made under a different key
(authentication mismatch) fails, modelled as `none` (`InvalidToken`). -/
def Fernet.decrypt (key : Nat) : FernetTok → Option PBytes
  | .mk k p => if k = key then some p else none

/-- Modelled from the spec: `json.dumps` of a JSON value always yields the
well-formed serialization of that value. -/
def Json.dumps (v : JValue) : JsonText := .wf v

/-- Modelled from the spec: `json.loads` recovers the value from a
well-formed serialization and raises (`none`) on anything else. -/
def Json.loads : JsonText → Option JValue
  | .wf v => some v
  | .malformed _ => none
  | .blank => none

/-! ## Audit pipeline (`log_event`, src/logger.py lines 39-79) -/

/-- The `user_data` dict, with exactly the keys `log_event` reads. A missing
key is `none`; `dict.get(k, default)` is `Option.getD`. The `id` field is
stored as its `str()` image (the code applies `str(...)` or an f-string to
it before use; `str('') = ''` so the missing-key default is unchanged). -/
structure UserData where
  id : Option String := none
  username : Option String := none
  first_name : Option String := none
  last_name : Option String := none
  language_code : Option String := none
  is_bot : Option Bool := none
  client : Option String := none
  source : Option String := none

/-- The wall-clock readings `log_event` / `_save_log` take, threaded in
explicitly: `str(datetime.now().timestamp())`, the high-resolution float
used in the event id; `datetime.utcnow().isoformat() + "Z"`; and
`datetime.now().strftime` of `%Y-%m-%d`, the partition date. -/
structure Clock where
  nowTs : String
  utcIso : String
  dateStr : String

/-- A log entry is the Python dict built in `log_event`: an ordered
association list with string keys. -/
abbrev LogEntry := List (String × JValue)

/-- `content` field: `fernet.encrypt(content.encode()).decode() if content
else ""`; a non-empty string is truthy. -/
def contentField (key : Nat) (content : String) : JValue :=
  if content = "" then .s "" else .tok (Fernet.encrypt key (.ofStr content))

/-- `additional_data` field: `fernet.encrypt(json.dumps(additional_data or
{}).encode()).decode() if additional_data else ""`; `None` and the empty
dict are falsy. -/
def adField (key : Nat) (ad : Option (List (String × JValue))) : JValue :=
  match ad with
  | none => .s ""
  | some [] => .s ""
  | some l => .tok (Fernet.encrypt key (.ofJson (Json.dumps (.obj l))))

/-- The `event_id` expression: `_anonymize` of the f-string concatenating
`datetime.now().timestamp()` and `user_data.get('id', '')`. -/
def eventId (c : Clock) (u : UserData) : String :=
  anonymize (c.nowTs ++ u.id.getD "")

/-- The `log_entry` dict literal of `log_event`, in source order. -/
def mkLogEntry (c : Clock) (key : Nat) (event_type : String) (u : UserData)
    (content : String) (additional_data : Option (List (String × JValue))) : LogEntry :=
  [("timestamp", .s c.utcIso),
   ("event_id", .s (eventId c u)),
   ("event_type", .s event_type),
   ("user", .obj
     [("id_anon", .s (anonymize (u.id.getD ""))),
      ("username_anon", .s (anonymize (u.username.getD ""))),
      ("first_name_anon", .s (anonymize (u.first_name.getD ""))),
      ("last_name_anon", .s (anonymize (u.last_name.getD ""))),
      ("language_code", .s (u.language_code.getD "")),
      ("is_bot", .b (u.is_bot.getD false))]),
   ("metadata", .obj
     [("platform", .s "telegram"),
      ("client", .s (u.client.getD "unknown")),
      ("source", .s (u.source.getD "unknown"))]),
   ("content", contentField key content),
   ("additional_data", adField key additional_data)]

/-! ## Partitioned log store (`_save_log` / `read_logs`, lines 81-135) -/

/-- `dict.pop(k, None)` on a dict (keys are unique): remove the binding of
`k`. -/
def dictPop (k : String) (d : LogEntry) : LogEntry :=
  d.filter (fun p => p.1 ≠ k)

/-- The redacted copy written by `_save_log`:
`safe_log_entry.pop("content", None); safe_log_entry.pop("additional_data",
None)` after `log_entry.copy()`. -/
def safeEntry (e : LogEntry) : LogEntry :=
  dictPop "additional_data" (dictPop "content" e)

/-- One chunk of the encrypted partition file, as delimited by
`\n---RECORD---\n`: a Fernet token written by `_save_log`, corrupted bytes
that are not a valid token (identified by a tag), or blank/whitespace
bytes. Fernet tokens are urlsafe-base64 text and never contain the
newline-framed delimiter, so splitting recovers exactly the appended
tokens, the final empty chunk after the trailing delimiter being blank. -/
inductive Chunk : Type where
  | tok : FernetTok → Chunk
  | corrupt : Nat → Chunk
  | blank : Chunk

/-- `record.strip()` truthiness for a chunk. -/
def Chunk.nonblank : Chunk → Bool
  | .blank => false
  | _ => true

/-- `line.strip()` truthiness for a line of the redacted ndjson file. -/
def JsonText.nonblank : JsonText → Bool
  | .blank => false
  | _ => true

/-- The on-disk state `_save_log` / `read_logs` touch: for each date, the
redacted ndjson file (a list of lines) and the encrypted file (its
delimiter-split chunks). A date never written maps to `[]`, matching the
`os.path.exists` guard returning no entries. -/
structure Store where
  raw : String → List JsonText
  enc : String → List Chunk

/-- Which of the two sequential file appends in `_save_log` fails, modelling
a filesystem fault (`ok` = none). -/
inductive WriteOutcome : Type where
  | ok : WriteOutcome
  | rawFails : WriteOutcome
  | encFails : WriteOutcome

/-- `_save_log`: writes the redacted line to `logs/raw/<date>.ndjson`, then
the Fernet encryption of the full entry's JSON followed by the delimiter to
`logs/encrypted/<date>.enc`. An I/O exception propagates, but the writes
already made persist: `rawFails` persists nothing, `encFails` persists the
redacted line only. Returns (success, resulting store). -/
def saveLog (w : WriteOutcome) (key : Nat) (date : String) (log_entry : LogEntry)
    (st : Store) : Bool × Store :=
  match w with
  | .rawFails => (false, st)
  | .encFails =>
      (false, { st with raw := fun d => if d = date then st.raw d ++ [Json.dumps (.obj (safeEntry log_entry))] else st.raw d })
  | .ok =>
      (true,
       { raw := fun d => if d = date then st.raw d ++ [Json.dumps (.obj (safeEntry log_entry))] else st.raw d,
         enc := fun d => if d = date then st.enc d ++ [Chunk.tok (Fernet.encrypt key (.ofJson (Json.dumps (.obj log_entry))))] else st.enc d })

/-- `log_event`: assembles the entry and calls `_save_log`; on success
returns `log_entry["event_id"]`, otherwise the exception propagates
(`none`). -/
def logEvent (w : WriteOutcome) (c : Clock) (key : Nat) (event_type : String)
    (u : UserData) (content : String) (additional_data : Option (List (String × JValue)))
    (st : Store) : Option String × Store :=
  let log_entry := mkLogEntry c key event_type u content additional_data
  let r := saveLog w key c.dateStr log_entry st
  (if r.1 then some (eventId c u) else none, r.2)

/-- The per-chunk body of the decrypting read loop:
`fernet.decrypt(record)` then `json.loads(decrypted.decode())`, the
`except` clause turning any failure into a skip (`none`). Decrypted bytes
that are not a JSON text fail the parse. -/
def decodeChunk (key : Nat) : Chunk → Option JValue
  | .tok t =>
      match Fernet.decrypt key t with
      | some (.ofJson jt) => Json.loads jt
      | some (.ofStr _) => none
      | none => none
  | .corrupt _ => none
  | .blank => none

/-- `read_logs(date, decrypt=True)`: split on the delimiter, skip blank
chunks, decrypt-and-parse each remaining chunk, skipping failures. -/
def readLogsDec (key : Nat) (st : Store) (date : String) : List JValue :=
  ((st.enc date).filter Chunk.nonblank).filterMap (decodeChunk key)

/-- The unguarded parse loop of the non-decrypting read: each line is parsed
in order and the results collected; a parse failure propagates (`none`). -/
def loadLines : List JsonText → Option (List JValue)
  | [] => some []
  | x :: xs =>
      match Json.loads x with
      | none => none
      | some v => (loadLines xs).map (fun vs => v :: vs)

/-- `read_logs(date, decrypt=False)`: parse each non-blank line of the
redacted file; `json.loads` is not guarded here, so a malformed line raises
and the whole call fails (`none`). -/
def readLogsRaw (st : Store) (date : String) : Option (List JValue) :=
  loadLines ((st.raw date).filter JsonText.nonblank)

/-! ## Retention manager (`cleanup_old_logs`, src/logger.py lines 141-171)

Filenames are modelled as strings; instants as seconds on a proleptic
Gregorian day count (strictly monotone in calendar order, so `datetime`
comparisons coincide with `Nat` comparisons of encodings). -/

/-- Python `str.split(c)` on a character list (`''.split(c) = ['']`). -/
def splitOnChar (c : Char) : List Char → List (List Char)
  | [] => [[]]
  | x :: xs =>
      let r := splitOnChar c xs
      if x = c then [] :: r
      else
        match r with
        | hd :: tl => (x :: hd) :: tl
        | [] => [[x]]

/-- Decimal value of a digit list. -/
def digitsToNat (l : List Char) : Nat :=
  l.foldl (fun a c => 10 * a + (c.toNat - 48)) 0

def isLeap (y : Nat) : Bool := y % 4 == 0 && (y % 100 != 0 || y % 400 == 0)

def daysInMonth (y m : Nat) : Nat :=
  match m with
  | 1 => 31
  | 2 => if isLeap y then 29 else 28
  | 3 => 31
  | 4 => 30
  | 5 => 31
  | 6 => 30
  | 7 => 31
  | 8 => 31
  | 9 => 30
  | 10 => 31
  | 11 => 30
  | 12 => 31
  | _ => 0

def daysBeforeMonth (y m : Nat) : Nat :=
  (List.range (m - 1)).foldl (fun a i => a + daysInMonth y (i + 1)) 0

/-- Days from 0001-01-01 to the given date (proleptic Gregorian). -/
def dayOrdinal (y m d : Nat) : Nat :=
  365 * (y - 1) + (y - 1) / 4 - (y - 1) / 100 + (y - 1) / 400 + daysBeforeMonth y m + (d - 1)

/-- Midnight of a date, in seconds. -/
def dateSecs (y m d : Nat) : Nat := dayOrdinal y m d * 86400

/-- A full `datetime`, in seconds. -/
def dtSecs (y m d hh mi ss : Nat) : Nat := dateSecs y m d + hh * 3600 + mi * 60 + ss

/-- `datetime.strptime(s, '%Y-%m-%d')`: exactly four year digits, one or two
month and day digits, dash-separated, nothing else, and a valid calendar
date (year at least 1); `none` models the raised `ValueError`. -/
def parseDateYMD (l : List Char) : Option (Nat × Nat × Nat) :=
  match splitOnChar '-' l with
  | [ys, ms, ds] =>
      if ys.length == 4 && ys.all Char.isDigit
          && (1 ≤ ms.length && ms.length ≤ 2) && ms.all Char.isDigit
          && (1 ≤ ds.length && ds.length ≤ 2) && ds.all Char.isDigit then
        let y := digitsToNat ys
        let m := digitsToNat ms
        let d := digitsToNat ds
        if 1 ≤ y && (1 ≤ m && m ≤ 12) && (1 ≤ d && d ≤ daysInMonth y m) then
          some (y, m, d)
        else none
      else none
  | _ => none

/-- `datetime.strptime(s, '%Y%m%d_%H%M%S')`: eight date digits, an
underscore, six time digits, with valid ranges (`%S` admits leap seconds up
to 61); returns the instant in seconds, `none` models `ValueError`. -/
def parseKeyTs (l : List Char) : Option Nat :=
  match splitOnChar '_' l with
  | [dp, tp] =>
      if dp.length == 8 && dp.all Char.isDigit && tp.length == 6 && tp.all Char.isDigit then
        let y := digitsToNat (dp.take 4)
        let m := digitsToNat ((dp.drop 4).take 2)
        let d := digitsToNat (dp.drop 6)
        let hh := digitsToNat (tp.take 2)
        let mi := digitsToNat ((tp.drop 2).take 2)
        let ss := digitsToNat (tp.drop 4)
        if 1 ≤ y && (1 ≤ m && m ≤ 12) && (1 ≤ d && d ≤ daysInMonth y m)
            && hh ≤ 23 && mi ≤ 59 && ss ≤ 61 then
          some (dtSecs y m d hh mi ss)
        else none
      else none
  | _ => none

/-- Python `str.endswith`. -/
def strEndsWith (n suff : String) : Bool := suff.data.isSuffixOf n.data

/-- Python `str.startswith`. -/
def strStartsWith (n pre : String) : Bool := pre.data.isPrefixOf n.data

/-- `filename.split('.')[0]`: the prefix before the first dot. -/
def beforeFirstDot (n : String) : List Char := n.data.takeWhile (fun c => c ≠ '.')

/-- `filename[4:-4]`, extracting the timestamp core of a key filename. -/
def keyCore (n : String) : List Char :=
  let l := n.data.drop 4
  l.take (l.length - 4)

/-- A log-area filename the scan deletes: matching extension and embedded
date strictly before the cutoff. -/
def logOld (cutoff : Nat) (ext n : String) : Bool :=
  strEndsWith n ext &&
    (match parseDateYMD (beforeFirstDot n) with
     | some (y, m, d) => dateSecs y m d < cutoff
     | none => false)

/-- `filename.startswith('key_') and filename.endswith('.key')`. -/
def keyMatch (n : String) : Bool := strStartsWith n "key_" && strEndsWith n ".key"

/-- A key filename the scan deletes: matching pattern and embedded timestamp
strictly before the cutoff. -/
def keyOld (cutoff : Nat) (n : String) : Bool :=
  keyMatch n &&
    (match parseKeyTs (keyCore n) with
     | some t => t < cutoff
     | none => false)

/-- One pass over a log directory (`logs/raw` or `logs/encrypted`): files
with the matching extension have `split('.')[0]` parsed with
`strptime('%Y-%m-%d')` and are removed when dated before the cutoff; the
parse failure is NOT handled here, so it aborts the pass, leaving the
current file and all later files untouched: `.error` carries the directory
contents at that point, `.ok` the surviving contents. -/
def cleanupLogArea (cutoff : Nat) (ext : String) : List String → Except (List String) (List String)
  | [] => .ok []
  | n :: rest =>
      if strEndsWith n ext then
        match parseDateYMD (beforeFirstDot n) with
        | none => .error (n :: rest)
        | some (y, m, d) =>
            if dateSecs y m d < cutoff then cleanupLogArea cutoff ext rest
            else
              match cleanupLogArea cutoff ext rest with
              | .ok r => .ok (n :: r)
              | .error r => .error (n :: r)
      else
        match cleanupLogArea cutoff ext rest with
        | .ok r => .ok (n :: r)
        | .error r => .error (n :: r)

/-- The `logs/keys` pass: files matching `key_*.key` have `filename[4:-4]`
parsed with `strptime('%Y%m%d_%H%M%S')` and are removed when before the
cutoff; here the `ValueError` IS caught (`except ValueError: pass`), so an
unparseable name is kept and the scan continues. -/
def cleanupKeyArea (cutoff : Nat) : List String → List String
  | [] => []
  | n :: rest =>
      if keyMatch n then
        match parseKeyTs (keyCore n) with
        | none => n :: cleanupKeyArea cutoff rest
        | some t =>
            if t < cutoff then cleanupKeyArea cutoff rest
            else n :: cleanupKeyArea cutoff rest
      else n :: cleanupKeyArea cutoff rest

/-- The three storage-area listings `cleanup_old_logs` scans. -/
structure LogDirs where
  rawFiles : List String
  encFiles : List String
  keyFiles : List String
deriving DecidableEq

/-- `cleanup_old_logs(days)`: cutoff is `datetime.now() - timedelta(days)`
(the caller's `now` is threaded in as seconds; `Nat` subtraction truncates
at 0, matching no realistic input), then the raw, encrypted and key areas
are processed in that order; an unhandled `ValueError` in an earlier area
propagates out of `cleanup_old_logs`, so later areas are not processed at
all. Returns (completed without exception, resulting listings). -/
def cleanup_old_logs (nowSecs : Nat) (days : Nat) (st : LogDirs) : Bool × LogDirs :=
  match cleanupLogArea (nowSecs - days * 86400) ".ndjson" st.rawFiles with
  | .error r => (false, { st with rawFiles := r })
  | .ok r =>
      match cleanupLogArea (nowSecs - days * 86400) ".enc" st.encFiles with
      | .error e => (false, { rawFiles := r, encFiles := e, keyFiles := st.keyFiles })
      | .ok e => (true, { rawFiles := r, encFiles := e, keyFiles := cleanupKeyArea (nowSecs - days * 86400) st.keyFiles })

/-! ## Concrete objects used by witnesses and counterexamples -/

/-- A store with no partition written yet. -/
def emptyStore : Store := { raw := fun _ => [], enc := fun _ => [] }

/-- Concrete clock readings for witnesses. -/
def clk : Clock :=
  { nowTs := "1700000000.123", utcIso := "2024-01-01T00:00:00Z", dateStr := "2024-01-01" }

/-- Concrete user attributes for witnesses. -/
def userA : UserData :=
  { id := some "123", username := some "alice", first_name := some "A",
    last_name := some "B", language_code := some "en", is_bot := some false }

/-- A chunk of the encrypted stream holding a well-formed entry under a
given key, as written by `_save_log`. -/
def validTok (k : Nat) (e : LogEntry) : Chunk :=
  .tok (Fernet.encrypt k (.ofJson (Json.dumps (.obj e))))

/-- First valid record for the C5 witness partition. -/
def entryOne : LogEntry := [("event_type", JValue.s "one")]

/-- Second valid record for the C5 witness partition. -/
def entryTwo : LogEntry := [("event_type", JValue.s "two")]

/-- An encrypted-partition chunk that is either a valid record or corrupted
bytes. -/
def mixChunk (k : Nat) : LogEntry ⊕ Nat → Chunk
  | .inl e => validTok k e
  | .inr g => Chunk.corrupt g

/-- A store whose encrypted partition holds one corrupted record between two
valid ones. -/
def mixedStore : Store :=
  { raw := fun _ => [],
    enc := fun d => if d = "2024-01-01" then [validTok 0 entryOne, Chunk.corrupt 7, validTok 0 entryTwo] else [] }

/-- A redacted partition with one valid and one malformed line. -/
def badRawStore : Store :=
  { raw := fun d => if d = "2024-01-01" then [JsonText.wf (.obj entryOne), JsonText.malformed 0] else [],
    enc := fun _ => [] }

/-- Encrypted store with one malformed-JSON record between two valid ones. -/
def malformedEncStore : Store :=
  { raw := fun _ => [],
    enc := fun _ => [validTok 0 entryOne,
                     Chunk.tok (Fernet.encrypt 0 (.ofJson (.malformed 3))), validTok 0 entryTwo] }

/-- A concrete "now": 2026-10-12 12:00:00. -/
def nowW : Nat := dtSecs 2026 10 12 12 0 0

/-- Files dated 45 days (2026-08-28) and 5 days (2026-10-07) before `nowW`
in all three storage areas. -/
def dirsW : LogDirs :=
  { rawFiles := ["2026-08-28.ndjson", "2026-10-07.ndjson"],
    encFiles := ["2026-08-28.enc", "2026-10-07.enc"],
    keyFiles := ["key_20260828_120000.key", "key_20261007_120000.key"] }

/-- Listings whose redacted-log area starts with an unparseable filename,
followed by genuinely old files everywhere. -/
def dirsBad : LogDirs :=
  { rawFiles := ["oops.ndjson", "2020-01-01.ndjson"],
    encFiles := ["2020-01-01.enc"],
    keyFiles := ["key_20200101_000000.key"] }

/-! ## Theorems -/

theorem length_mk (l : List Char) : (String.mk l).length = l.length := rfl

theorem sha256HexChars_length (s : String) : (sha256HexChars s).length = 64 := by
  simp [sha256HexChars, hexChars, hex8]

theorem hexDigit_mem (n : Nat) (h : n ≤ 15) :
    ("0123456789abcdef".data.contains (hexDigit n)) = true := by
  interval_cases n <;> decide

theorem hex8_hex (w : Nat) : ∀ ch ∈ hex8 w, ("0123456789abcdef".data.contains ch) = true := by
  intro ch hch
  simp only [hex8, List.mem_cons, List.not_mem_nil, or_false] at hch
  rcases hch with h | h | h | h | h | h | h | h <;>
    (subst h; exact hexDigit_mem _ Nat.and_le_right)

theorem hexChars_hex (st : Hash8) :
    ∀ ch ∈ hexChars st, ("0123456789abcdef".data.contains ch) = true := by
  intro ch hch
  simp only [hexChars, List.mem_append] at hch
  rcases hch with ((((((h | h) | h) | h) | h) | h) | h) | h <;> exact hex8_hex _ ch h

/-- Claim C3: `_anonymize` is deterministic — the same input yields the same
token across calls and across independently constructed logger instances —
and for every non-empty string returns the first 12 hexadecimal characters
of the SHA-256 digest of the string (a fixed-length-12 string of hex
digits); for the empty string it returns the fixed sentinel "anonymous". -/
theorem anonymize_spec (l1 l2 : SecureLogger) (s : String) (hs : s ≠ "") :
    l1.anonMethod s = l2.anonMethod s ∧
    anonymize s = String.mk ((sha256HexChars s).take 12) ∧
    (anonymize s).length = 12 ∧
    ((anonymize s).data.all (fun ch => "0123456789abcdef".data.contains ch)) = true ∧
    anonymize "" = "anonymous" := by
  refine ⟨rfl, ?_, ?_, ?_, rfl⟩
  · simp [anonymize, hs]
  · simp [anonymize, hs, length_mk, sha256HexChars_length]
  · simp only [anonymize, hs, if_false, if_neg]
    rw [List.all_eq_true]
    intro ch hch
    exact hexChars_hex _ ch (List.mem_of_mem_take hch)

/-- Witness for C3 at a concrete non-empty input. -/
theorem anonymize_spec_witness :
    SecureLogger.anonMethod ⟨0⟩ "alice" = SecureLogger.anonMethod ⟨1⟩ "alice" ∧
    anonymize "alice" = String.mk ((sha256HexChars "alice").take 12) ∧
    (anonymize "alice").length = 12 ∧
    ((anonymize "alice").data.all (fun ch => "0123456789abcdef".data.contains ch)) = true ∧
    anonymize "" = "anonymous" :=
  anonymize_spec ⟨0⟩ ⟨1⟩ "alice" (by decide)

/-- Claim C4: decrypting `encrypt(p)` under the same key returns `p`;
decrypting a token produced under a different key fails with a decryption
error (`none`) rather than returning any plaintext. -/
theorem fernet_roundtrip (k k' : Nat) (p : PBytes) (hk : k' ≠ k) :
    Fernet.decrypt k (Fernet.encrypt k p) = some p ∧
    Fernet.decrypt k' (Fernet.encrypt k p) = none := by
  constructor
  · simp [Fernet.encrypt, Fernet.decrypt]
  · simp [Fernet.encrypt, Fernet.decrypt]
    exact fun h => absurd h.symm hk

/-- Witness for C4 at concrete keys and payload. -/
theorem fernet_roundtrip_witness :
    Fernet.decrypt 0 (Fernet.encrypt 0 (.ofStr "hello")) = some (.ofStr "hello") ∧
    Fernet.decrypt 1 (Fernet.encrypt 0 (.ofStr "hello")) = none :=
  fernet_roundtrip 0 1 (.ofStr "hello") (by decide)

/-- Claim C1: an entry logged with non-empty content plaintext and a
non-empty additional-data mapping, then read back from the same date with
decryption, is recovered whole and in order; its `content` field decrypts
under the same key to the original plaintext, and its `additional_data`
field decrypts under the same key to a serialization that parses back to
the original mapping. -/
theorem log_read_roundtrip (c : Clock) (k : Nat) (et : String) (u : UserData)
    (content : String) (ad : List (String × JValue)) (st : Store)
    (hc : content ≠ "") (had : ad ≠ []) :
    readLogsDec k (logEvent .ok c k et u content (some ad) st).2 c.dateStr
      = readLogsDec k st c.dateStr ++ [JValue.obj (mkLogEntry c k et u content (some ad))] ∧
    (mkLogEntry c k et u content (some ad)).lookup "content"
      = some (.tok (Fernet.encrypt k (.ofStr content))) ∧
    Fernet.decrypt k (Fernet.encrypt k (.ofStr content)) = some (.ofStr content) ∧
    (mkLogEntry c k et u content (some ad)).lookup "additional_data"
      = some (.tok (Fernet.encrypt k (.ofJson (Json.dumps (.obj ad))))) ∧
    Fernet.decrypt k (Fernet.encrypt k (.ofJson (Json.dumps (.obj ad))))
      = some (.ofJson (Json.dumps (.obj ad))) ∧
    Json.loads (Json.dumps (.obj ad)) = some (.obj ad) := by
  obtain ⟨a, as, rfl⟩ : ∃ a as, ad = a :: as := by
    cases ad with
    | nil => exact absurd rfl had
    | cons a as => exact ⟨a, as, rfl⟩
  refine ⟨?_, ?_, by simp [Fernet.encrypt, Fernet.decrypt], rfl,
          by simp [Fernet.encrypt, Fernet.decrypt], rfl⟩
  · simp [logEvent, saveLog, readLogsDec, List.filter_append, List.filterMap_append,
          Chunk.nonblank, decodeChunk, Fernet.decrypt, Fernet.encrypt, Json.loads, Json.dumps]
  · show some (contentField k content) = _
    simp [contentField, hc]

/-- Witness for C1 at a concrete entry. -/
theorem log_read_roundtrip_witness :
    readLogsDec 0 (logEvent .ok clk 0 "message" userA "hello" (some [("x", .s "y")]) emptyStore).2 clk.dateStr
      = readLogsDec 0 emptyStore clk.dateStr
          ++ [JValue.obj (mkLogEntry clk 0 "message" userA "hello" (some [("x", .s "y")]))] ∧
    (mkLogEntry clk 0 "message" userA "hello" (some [("x", .s "y")])).lookup "content"
      = some (.tok (Fernet.encrypt 0 (.ofStr "hello"))) ∧
    Fernet.decrypt 0 (Fernet.encrypt 0 (.ofStr "hello")) = some (.ofStr "hello") ∧
    (mkLogEntry clk 0 "message" userA "hello" (some [("x", .s "y")])).lookup "additional_data"
      = some (.tok (Fernet.encrypt 0 (.ofJson (Json.dumps (.obj [("x", .s "y")]))))) ∧
    Fernet.decrypt 0 (Fernet.encrypt 0 (.ofJson (Json.dumps (.obj [("x", .s "y")]))))
      = some (.ofJson (Json.dumps (.obj [("x", .s "y")]))) ∧
    Json.loads (Json.dumps (.obj [("x", .s "y")])) = some (.obj [("x", .s "y")]) :=
  log_read_roundtrip clk 0 "message" userA "hello" [("x", .s "y")] emptyStore
    (by decide) (List.cons_ne_nil _ _)

/-- Claim C2: for every input to `log_event`, the entry written to the
redacted stream is the full entry with both sensitive fields popped, and it
contains neither a `content` key nor an `additional_data` key (whether the
encrypted write succeeds or fails afterwards). -/
theorem redacted_no_sensitive (c : Clock) (k : Nat) (et : String) (u : UserData)
    (content : String) (ad : Option (List (String × JValue))) (st : Store) :
    (logEvent .ok c k et u content ad st).2.raw c.dateStr
      = st.raw c.dateStr ++ [Json.dumps (.obj (safeEntry (mkLogEntry c k et u content ad)))] ∧
    (logEvent .encFails c k et u content ad st).2.raw c.dateStr
      = st.raw c.dateStr ++ [Json.dumps (.obj (safeEntry (mkLogEntry c k et u content ad)))] ∧
    "content" ∉ (safeEntry (mkLogEntry c k et u content ad)).map Prod.fst ∧
    "additional_data" ∉ (safeEntry (mkLogEntry c k et u content ad)).map Prod.fst := by
  refine ⟨by simp [logEvent, saveLog], by simp [logEvent, saveLog], ?_, ?_⟩
  · simp [safeEntry, dictPop, mkLogEntry]
  · simp [safeEntry, dictPop, mkLogEntry]

/-- Claim C5: reading an encrypted partition whose chunks are valid records
around one corrupted chunk returns exactly the valid decoded entries, in
their original write order, skipping the corrupted chunk instead of
aborting. -/
theorem read_skips_corrupt (k : Nat) (st : Store) (date : String)
    (l : List (LogEntry ⊕ Nat))
    (hfile : st.enc date = l.map (mixChunk k)) :
    readLogsDec k st date
      = l.filterMap (fun x => match x with
          | .inl e => some (JValue.obj e)
          | .inr _ => none) := by
  have hgen : ∀ m : List (LogEntry ⊕ Nat),
      ((m.map (mixChunk k)).filter Chunk.nonblank).filterMap (decodeChunk k)
        = m.filterMap (fun x => match x with
            | .inl e => some (JValue.obj e)
            | .inr _ => none) := by
    intro m
    induction m with
    | nil => rfl
    | cons x xs ih =>
        cases x with
        | inl e =>
            simp only [List.map_cons, mixChunk, validTok]
            simp [Chunk.nonblank, decodeChunk, Fernet.encrypt, Fernet.decrypt,
                  Json.dumps, Json.loads, ih]
        | inr g =>
            simp only [List.map_cons, mixChunk]
            simp [Chunk.nonblank, decodeChunk, ih]
  rw [readLogsDec, hfile, hgen]

/-- Witness for C5: one corrupted and two valid records yield exactly the
two valid entries in order. -/
theorem read_skips_corrupt_witness :
    readLogsDec 0 mixedStore "2024-01-01" = [JValue.obj entryOne, JValue.obj entryTwo] :=
  read_skips_corrupt 0 mixedStore "2024-01-01" [.inl entryOne, .inr 7, .inl entryTwo]
    (by simp [mixedStore, mixChunk])

/-- Valid chunks decode back to their entries, in order. -/
theorem decode_validTok_list (k : Nat) (l : List LogEntry) :
    ((l.map (validTok k)).filter Chunk.nonblank).filterMap (decodeChunk k)
      = l.map JValue.obj := by
  induction l with
  | nil => rfl
  | cons e es ih =>
      simp [validTok, Chunk.nonblank, decodeChunk, Fernet.encrypt, Fernet.decrypt,
            Json.dumps, Json.loads, ih]

/-- If any line fails to parse, the whole traversal fails. -/
theorem loadLines_none {l : List JsonText} (h : ∃ x ∈ l, Json.loads x = none) :
    loadLines l = none := by
  induction l with
  | nil => simp at h
  | cons x xs ih =>
      rcases h with ⟨y, hy, hn⟩
      rcases List.mem_cons.mp hy with rfl | hmem
      · simp [loadLines, hn]
      · cases hx : Json.loads x <;> simp [loadLines, hx, ih ⟨y, hmem, hn⟩]

/-- Claim C6 counterexample: in the redacted read path (`decrypt=False`) a
record that is malformed JSON is NOT recovered locally — `json.loads` is
unguarded there, so the whole read raises (modelled as `none`) instead of
skipping the record and returning the valid one. -/
theorem read_raw_malformed_raises : readLogsRaw badRawStore "2024-01-01" = none := by
  apply loadLines_none
  exact ⟨JsonText.malformed 0, by simp [badRawStore, JsonText.nonblank], rfl⟩

/-- Claim C6 amended: in the encrypted read path (`decrypt=True`) a record
that is malformed JSON after decryption is skipped with local recovery,
exactly like a decryption failure; but in the redacted path
(`decrypt=False`) a malformed JSON line raises and fails the whole read. -/
theorem read_malformed_policy (k g g' : Nat) (st st2 : Store) (date date' : String)
    (l1 l2 : List LogEntry)
    (henc : st.enc date = l1.map (validTok k)
        ++ Chunk.tok (Fernet.encrypt k (.ofJson (.malformed g))) :: l2.map (validTok k))
    (hraw : JsonText.malformed g' ∈ st2.raw date') :
    readLogsDec k st date = l1.map JValue.obj ++ l2.map JValue.obj ∧
    readLogsRaw st2 date' = none := by
  constructor
  · have h2 : ((Chunk.tok (Fernet.encrypt k (.ofJson (.malformed g)))
          :: l2.map (validTok k)).filter Chunk.nonblank).filterMap (decodeChunk k)
        = l2.map JValue.obj := by
      simpa [Chunk.nonblank, decodeChunk, Fernet.encrypt, Fernet.decrypt, Json.loads]
        using decode_validTok_list k l2
    rw [readLogsDec, henc, List.filter_append, List.filterMap_append,
        decode_validTok_list k l1, h2]
  · exact loadLines_none
      ⟨JsonText.malformed g', List.mem_filter.mpr ⟨hraw, rfl⟩, rfl⟩

/-- Witness for the amended C6 at a concrete partition pair. -/
theorem read_malformed_policy_witness :
    readLogsDec 0 malformedEncStore "2024-01-01" = [JValue.obj entryOne, JValue.obj entryTwo] ∧
    readLogsRaw badRawStore "2024-01-01" = none :=
  read_malformed_policy 0 3 0 malformedEncStore
    badRawStore "2024-01-01" "2024-01-01" [entryOne] [entryTwo]
    rfl (by simp [badRawStore])

/-- Claim C7 counterexample: when the encrypted-stream append fails, the
call fails (no event id is returned) yet the redacted record has already
been persisted without its encrypted counterpart — an intermediate partial
state. -/
theorem logEvent_partial_state :
    (logEvent .encFails clk 0 "message" userA "hi" none emptyStore).1 = none ∧
    (logEvent .encFails clk 0 "message" userA "hi" none emptyStore).2.raw "2024-01-01"
      = [Json.dumps (.obj (safeEntry (mkLogEntry clk 0 "message" userA "hi" none)))] ∧
    (logEvent .encFails clk 0 "message" userA "hi" none emptyStore).2.enc "2024-01-01" = [] := by
  refine ⟨rfl, ?_, rfl⟩
  simp [logEvent, saveLog, emptyStore, clk]

/-- Claim C7 amended: on success the full entry is appended to both streams
and the event id is returned; a failure of the redacted-stream write
persists nothing; but a failure of the encrypted-stream write, while still
failing the call, leaves the redacted record persisted without its
encrypted counterpart. -/
theorem logEvent_persistence (c : Clock) (k : Nat) (et : String) (u : UserData)
    (content : String) (ad : Option (List (String × JValue))) (st : Store) :
    logEvent .ok c k et u content ad st
      = (some (eventId c u),
         { raw := fun d => if d = c.dateStr
             then st.raw d ++ [Json.dumps (.obj (safeEntry (mkLogEntry c k et u content ad)))]
             else st.raw d,
           enc := fun d => if d = c.dateStr
             then st.enc d ++ [validTok k (mkLogEntry c k et u content ad)]
             else st.enc d }) ∧
    logEvent .rawFails c k et u content ad st = (none, st) ∧
    (logEvent .encFails c k et u content ad st).1 = none ∧
    (logEvent .encFails c k et u content ad st).2.enc = st.enc ∧
    (logEvent .encFails c k et u content ad st).2.raw c.dateStr
      = st.raw c.dateStr ++ [Json.dumps (.obj (safeEntry (mkLogEntry c k et u content ad)))] := by
  refine ⟨rfl, rfl, rfl, rfl, ?_⟩
  simp [logEvent, saveLog]

/-- Anonymizing a missing or present-but-empty attribute yields the
sentinel. -/
theorem anonymize_getD_empty {o : Option String} (h : o = none ∨ o = some "") :
    anonymize (o.getD "") = "anonymous" := by
  rcases h with rfl | rfl <;> rfl

/-- Claim C10: every identifying user-attribute field that is missing or the
empty string is persisted as the fixed sentinel "anonymous" in the user
sub-record; that sub-record is identical in the full and the redacted
entry, both streams receive it, and the call still returns an event id. -/
theorem missing_fields_anonymous (c : Clock) (k : Nat) (et : String) (u : UserData)
    (content : String) (ad : Option (List (String × JValue))) (st : Store) :
    ∃ ur, (mkLogEntry c k et u content ad).lookup "user" = some (.obj ur) ∧
      (safeEntry (mkLogEntry c k et u content ad)).lookup "user" = some (.obj ur) ∧
      ((u.id = none ∨ u.id = some "") → ur.lookup "id_anon" = some (.s "anonymous")) ∧
      ((u.username = none ∨ u.username = some "") → ur.lookup "username_anon" = some (.s "anonymous")) ∧
      ((u.first_name = none ∨ u.first_name = some "") → ur.lookup "first_name_anon" = some (.s "anonymous")) ∧
      ((u.last_name = none ∨ u.last_name = some "") → ur.lookup "last_name_anon" = some (.s "anonymous")) ∧
      (logEvent .ok c k et u content ad st).1 = some (eventId c u) ∧
      (logEvent .ok c k et u content ad st).2.raw c.dateStr
        = st.raw c.dateStr ++ [Json.dumps (.obj (safeEntry (mkLogEntry c k et u content ad)))] ∧
      (logEvent .ok c k et u content ad st).2.enc c.dateStr
        = st.enc c.dateStr ++ [validTok k (mkLogEntry c k et u content ad)] := by
  refine ⟨[("id_anon", .s (anonymize (u.id.getD ""))),
          ("username_anon", .s (anonymize (u.username.getD ""))),
          ("first_name_anon", .s (anonymize (u.first_name.getD ""))),
          ("last_name_anon", .s (anonymize (u.last_name.getD ""))),
          ("language_code", .s (u.language_code.getD "")),
          ("is_bot", .b (u.is_bot.getD false))],
        rfl, rfl, ?_, ?_, ?_, ?_, rfl, by simp [logEvent, saveLog],
        by simp [logEvent, saveLog, validTok]⟩
  · intro h
    show some (JValue.s (anonymize (u.id.getD ""))) = _
    rw [anonymize_getD_empty h]
  · intro h
    show some (JValue.s (anonymize (u.username.getD ""))) = _
    rw [anonymize_getD_empty h]
  · intro h
    show some (JValue.s (anonymize (u.first_name.getD ""))) = _
    rw [anonymize_getD_empty h]
  · intro h
    show some (JValue.s (anonymize (u.last_name.getD ""))) = _
    rw [anonymize_getD_empty h]

/-- Witness for C10: all four identifying fields missing at once. -/
theorem missing_fields_anonymous_witness :
    ∃ ur, (mkLogEntry clk 0 "m" {} "" none).lookup "user" = some (.obj ur) ∧
      ur.lookup "id_anon" = some (.s "anonymous") ∧
      ur.lookup "username_anon" = some (.s "anonymous") ∧
      ur.lookup "first_name_anon" = some (.s "anonymous") ∧
      ur.lookup "last_name_anon" = some (.s "anonymous") ∧
      (logEvent .ok clk 0 "m" {} "" none emptyStore).1 = some (eventId clk {}) := by
  obtain ⟨ur, h1, _, h3, h4, h5, h6, h7, _, _⟩ :=
    missing_fields_anonymous clk 0 "m" {} "" none emptyStore
  exact ⟨ur, h1, h3 (Or.inl rfl), h4 (Or.inl rfl), h5 (Or.inl rfl), h6 (Or.inl rfl), h7⟩

/-- The key-area scan keeps exactly the files not matching-and-old. -/
theorem cleanupKeyArea_filter (cutoff : Nat) (l : List String) :
    cleanupKeyArea cutoff l = l.filter (fun n => !keyOld cutoff n) := by
  induction l with
  | nil => rfl
  | cons n rest ih =>
      unfold cleanupKeyArea
      by_cases hm : keyMatch n = true
      · rw [if_pos hm]
        cases hp : parseKeyTs (keyCore n) with
        | none => simp [List.filter_cons, keyOld, hm, hp, ih]
        | some t =>
            by_cases ht : t < cutoff
            · simp [List.filter_cons, keyOld, hm, hp, ht, ih]
            · simp [List.filter_cons, keyOld, hm, hp, ht, ih]
      · rw [if_neg hm]
        simp [List.filter_cons, keyOld, hm, ih]

/-- When every matching filename parses, a log-area scan completes and keeps
exactly the files not matching-and-old. -/
theorem cleanupLogArea_ok (cutoff : Nat) (ext : String) (l : List String)
    (h : ∀ n ∈ l, strEndsWith n ext = true → (parseDateYMD (beforeFirstDot n)).isSome) :
    cleanupLogArea cutoff ext l = .ok (l.filter (fun n => !logOld cutoff ext n)) := by
  induction l with
  | nil => rfl
  | cons n rest ih =>
      have hrest := ih (fun m hm hme => h m (List.mem_cons_of_mem _ hm) hme)
      unfold cleanupLogArea
      by_cases hm : strEndsWith n ext = true
      · obtain ⟨⟨y, m, d⟩, hp⟩ : ∃ t, parseDateYMD (beforeFirstDot n) = some t :=
          Option.isSome_iff_exists.mp (h n (List.mem_cons_self n rest) hm)
        by_cases hd : dateSecs y m d < cutoff
        · simp [hm, hp, hd, hrest, List.filter_cons, logOld]
        · simp [hm, hp, hd, hrest, List.filter_cons, logOld]
      · simp [hm, hrest, List.filter_cons, logOld]

/-- Claim C8: provided every matching log filename carries a parseable date
(the keys area needs no such hypothesis, its parse failures being caught),
`cleanup_old_logs(days)` completes and deletes, in each of the three
storage areas, exactly the files whose filename-embedded date precedes the
cutoff now minus `days` days, and no others. -/
theorem cleanup_spec (nowSecs days : Nat) (st : LogDirs)
    (h1 : ∀ n ∈ st.rawFiles, strEndsWith n ".ndjson" = true →
        (parseDateYMD (beforeFirstDot n)).isSome)
    (h2 : ∀ n ∈ st.encFiles, strEndsWith n ".enc" = true →
        (parseDateYMD (beforeFirstDot n)).isSome) :
    cleanup_old_logs nowSecs days st =
      (true,
       { rawFiles := st.rawFiles.filter (fun n => !logOld (nowSecs - days * 86400) ".ndjson" n),
         encFiles := st.encFiles.filter (fun n => !logOld (nowSecs - days * 86400) ".enc" n),
         keyFiles := st.keyFiles.filter (fun n => !keyOld (nowSecs - days * 86400) n) }) := by
  unfold cleanup_old_logs
  rw [cleanupLogArea_ok _ _ _ h1, cleanupLogArea_ok _ _ _ h2, cleanupKeyArea_filter]

/-- Witness for C8: with `days = 30` and files dated 45 and 5 days ago in
all three areas, exactly the 45-day-old files are deleted. -/
theorem cleanup_spec_witness :
    cleanup_old_logs nowW 30 dirsW =
      (true, { rawFiles := ["2026-10-07.ndjson"], encFiles := ["2026-10-07.enc"],
               keyFiles := ["key_20261007_120000.key"] }) := by
  rw [cleanup_spec nowW 30 dirsW (by decide) (by decide)]
  decide

/-- Claim C9 counterexample: an unparseable filename in the redacted-log
area is not recovered locally — the `ValueError` it raises aborts the whole
purge, so even the genuinely old files (in that area and in the areas not
yet scanned) survive; nothing at all is deleted. -/
theorem cleanup_unparseable_aborts :
    cleanup_old_logs nowW 30 dirsBad = (false, dirsBad) := by decide

/-- Claim C9 amended: a filename with an unparseable embedded date is never
deleted in any area; in the key-file area it is skipped and the scan of the
remaining files continues, but in the redacted/encrypted log areas the
parse failure aborts that area's scan, leaving the unparseable file and all
files after it untouched. -/
theorem cleanup_parse_failure (cutoff : Nat) (ext n kn : String)
    (rest pre suf : List String)
    (hm : strEndsWith n ext = true) (hp : parseDateYMD (beforeFirstDot n) = none)
    (hkm : keyMatch kn = true) (hkp : parseKeyTs (keyCore kn) = none) :
    cleanupLogArea cutoff ext (n :: rest) = .error (n :: rest) ∧
    cleanupKeyArea cutoff (pre ++ kn :: suf)
      = cleanupKeyArea cutoff pre ++ kn :: cleanupKeyArea cutoff suf := by
  constructor
  · unfold cleanupLogArea
    rw [if_pos hm, hp]
  · rw [cleanupKeyArea_filter, cleanupKeyArea_filter, cleanupKeyArea_filter,
        List.filter_append, List.filter_cons]
    simp [keyOld, hkm, hkp]

/-- Witness for the amended C9 at concrete filenames. -/
theorem cleanup_parse_failure_witness :
    cleanupLogArea 1000 ".ndjson" ["oops.ndjson", "2020-01-01.ndjson"]
      = .error ["oops.ndjson", "2020-01-01.ndjson"] ∧
    cleanupKeyArea 1000 (["key_20200101_000000.key"] ++ "key_bad.key" :: ["key_20300101_000000.key"])
      = cleanupKeyArea 1000 ["key_20200101_000000.key"]
          ++ "key_bad.key" :: cleanupKeyArea 1000 ["key_20300101_000000.key"] :=
  cleanup_parse_failure 1000 ".ndjson" "oops.ndjson" "key_bad.key"
    ["2020-01-01.ndjson"] ["key_20200101_000000.key"] ["key_20300101_000000.key"]
    (by decide) (by decide) (by decide) (by decide)

end SecureLog
